import Mathlib

/-!
Verification development for the Grist catalog connector
(`src/lib/imports.ts`, `src/lib/download.ts`, `src/lib/prepare.ts`).

The TypeScript source is shallowly embedded below: every remote call is
represented by passing the decoded response payload as an explicit argument,
strings are Lean `String`s manipulated through faithful models of the
JavaScript string primitives used by the source (`includes`, `split` with a
limit, `substring`, template-literal interpolation of `undefined`), and
fallible steps return `Except`.
-/

namespace CatalogGrist

/-- Model of JavaScript truthiness for an optional string:
`undefined` and the empty string are falsy. -/
def jsFalsyStr : Option String → Bool
  | none => true
  | some s => s = ""

/-- Model of a JavaScript template-literal interpolation of a value that may
be `undefined`: `undefined` prints as the string "undefined". -/
def jsStr : Option String → String
  | some s => s
  | none => "undefined"

/-- Decimal digits of a natural number, most significant first, computed
with explicit fuel so that the definition reduces by iota; the fuel is
always sufficient at the call site below. -/
def natToCharsAux : Nat → Nat → List Char
  | 0, _ => []
  | fuel + 1, n =>
    if n < 10 then [Nat.digitChar n]
    else natToCharsAux fuel (n / 10) ++ [Nat.digitChar (n % 10)]

/-- Decimal digits of a natural number, most significant first; mirrors the
JavaScript number-to-string conversion used when numeric ids are
concatenated into identifier strings. -/
def natToChars (n : Nat) : List Char := natToCharsAux (n + 1) n

/-- JavaScript number-to-string conversion for natural numbers. -/
def natToString (n : Nat) : String := ⟨natToChars n⟩

/-- Interpolation of a `number | undefined` value into a template literal. -/
def jsShowNat : Option Nat → String
  | some n => natToString n
  | none => "undefined"

/-- Model of JavaScript `String.prototype.includes`: substring search. -/
def jsIncludes (s pat : String) : Bool := decide (pat.data <:+: s.data)

/-- Model of JavaScript `String.prototype.substring(n)`: drop the first `n`
characters. -/
def jsSubstringFrom (s : String) (n : Nat) : String := ⟨s.data.drop n⟩

/-- Split a character list at every occurrence of `sep`, returning the first
field and the remaining fields. -/
def splitCharsAux (sep : Char) : List Char → List Char × List (List Char)
  | [] => ([], [])
  | c :: cs =>
    let r := splitCharsAux sep cs
    if c = sep then ([], r.1 :: r.2) else (c :: r.1, r.2)

/-- All fields of a character list split at `sep`. -/
def splitChars (sep : Char) (l : List Char) : List (List Char) :=
  (splitCharsAux sep l).1 :: (splitCharsAux sep l).2

/-- Model of JavaScript `String.prototype.split(sep, limit)` for a
single-character separator: the full split truncated to the first `limit`
fields (`"a|b|c|d".split("|", 3)` is `["a","b","c"]`,
`"".split("|")` is `[""]`). -/
def jsSplit (s : String) (sep : Char) (limit : Nat) : List String :=
  ((splitChars sep s.data).map fun l => (⟨l⟩ : String)).take limit

/-! ## Data model

Shapes of the decoded Grist API payloads, reconstructed from the fields the
source reads (`#types` of the repository); optional chaining targets are
`Option`s. -/

/-- Owner of a personal organization (`owner.name`). -/
structure Owner where
  name : String
deriving DecidableEq, Repr

/-- An organization as returned by `/api/orgs` and `/api/orgs/{id}`. -/
structure Organization where
  name : String
  id : Nat
  domain : Option String := none
  owner : Option Owner := none
deriving DecidableEq, Repr

/-- A document entry inside a workspace payload. -/
structure DocumentSummary where
  name : String
  id : String
deriving DecidableEq, Repr

/-- A workspace as returned by `/api/orgs/{id}/workspaces` and
`/api/workspaces/{id}`. -/
structure Workspace where
  name : String
  id : Nat
  org : Option Organization := none
  docs : Option (List DocumentSummary) := none
deriving DecidableEq, Repr

/-- The workspace reference embedded in a document payload. -/
structure WorkspaceRef where
  name : String
  id : Nat
  org : Option Organization := none
deriving DecidableEq, Repr

/-- A document as returned by `/api/docs/{id}` (or its `/o/{domain}` variant). -/
structure Document where
  name : String
  id : String
  workspace : Option WorkspaceRef := none
deriving DecidableEq, Repr

/-- A table entry of the `/tables` payload. -/
structure Table where
  id : String
deriving DecidableEq, Repr

/-- Kind of a listing entry (`type: 'folder' | 'resource'`). -/
inductive EntryType where
  | folder
  | resource
deriving DecidableEq, Repr

/-- A folder or resource entry pushed onto `folders` by the `list` function;
`format` is absent for plain folders. -/
structure Entry where
  id : String
  title : String
  type : EntryType
  format : Option String := none
deriving DecidableEq, Repr

/-- The value returned by `list`: `{ count, results, path }`. -/
structure ListResult where
  count : Nat
  results : List Entry
  path : List Entry
deriving DecidableEq, Repr

/-- The Grist catalog configuration: `{ url, apiKey }`. -/
structure GristConfig where
  url : String
  apiKey : Option String := none
deriving DecidableEq, Repr

/-! ## Resource Navigator (`list` in `src/lib/imports.ts`)

The four-way `if`/`else if` chain of `list` dispatches purely on the shape of
`params.currentFolderId`; each branch is embedded as a pure function of the
decoded response payloads it consumes. -/

/-- The branch the `list` dispatch selects. -/
inductive ListBranch where
  | root
  | orgWorkspaces
  | workspaceDocs
  | docTables
deriving DecidableEq, Repr

/-- The dispatch of `list` on `params.currentFolderId`
(`src/lib/imports.ts`, the `if (!params.currentFolderId) ... else` chain). -/
def listDispatch (currentFolderId : Option String) : ListBranch :=
  if jsFalsyStr currentFolderId then .root
  else
    let id := currentFolderId.getD ""
    if jsIncludes id "/orgs/" then .orgWorkspaces
    else if jsIncludes id "/workspaces/" then .workspaceDocs
    else .docTables

/-- The `` ` (@${element.owner?.name})` `` suffix appended to the title of an
organization named "Personal". -/
def personalSuffix (o : Organization) : String :=
  if o.name = "Personal" then " (@" ++ jsStr (o.owner.map (·.name)) ++ ")" else ""

/-- Root branch of `list` (no `currentFolderId`): the organizations of
`{url}/api/orgs` become folders `/orgs/{id}`; the path is empty. -/
def listRoot (orgs : List Organization) : ListResult :=
  let folders := orgs.map fun o =>
    ({ id := "/orgs/" ++ natToString o.id
       title := o.name ++ personalSuffix o
       type := .folder } : Entry)
  { count := folders.length, results := folders, path := [] }

/-- Organization branch of `list` (`currentFolderId` contains `/orgs/`): the
workspaces of `{url}/api{currentFolderId}/workspaces` become folders
`/workspaces/{id}`; the path is the organization re-fetched without the
`/workspaces` suffix. -/
def listOrgWorkspaces (currentFolderId : String) (wss : List Workspace)
    (org : Organization) : ListResult :=
  let folders := wss.map fun w =>
    ({ id := "/workspaces/" ++ natToString w.id
       title := w.name
       type := .folder } : Entry)
  { count := folders.length
    results := folders
    path := [{ id := currentFolderId, title := org.name, type := .folder }] }

/-- Workspace branch of `list` (`currentFolderId` contains `/workspaces/`):
each document of the workspace payload becomes a folder
`{domain}|/docs/{docId}` with the domain taken from `res.org?.domain`; the
path is the parent organization then the workspace. -/
def listWorkspaceDocs (currentFolderId : String) (ws : Workspace) : ListResult :=
  let domain := jsStr (ws.org.bind (·.domain))
  let folders := (ws.docs.getD []).map fun d =>
    ({ id := domain ++ "|/docs/" ++ d.id
       title := d.name
       type := .folder } : Entry)
  { count := folders.length
    results := folders
    path := [{ id := "/orgs/" ++ jsShowNat (ws.org.map (·.id))
               title := (ws.org.map (·.name)).getD ""
               type := .folder },
             { id := currentFolderId, title := ws.name, type := .folder }] }

/-- URL built by the table branch of `list` before fetching `/tables`:
`const [domain, docUrl] = params.currentFolderId.split('|', 2)` then the
SaaS-vs-self-hosted rule on `catalogConfig.url.includes('.getgrist.com')`. -/
def listTablesUrl (cfgUrl currentFolderId : String) : String :=
  let parts := jsSplit currentFolderId '|' 2
  let domain := jsStr parts[0]?
  let docUrl := jsStr parts[1]?
  if jsIncludes cfgUrl ".getgrist.com" then
    cfgUrl ++ "/api" ++ docUrl ++ "/tables"
  else
    cfgUrl ++ "/o/" ++ domain ++ "/api" ++ docUrl ++ "/tables"

/-- Table branch of `list` (fallback case): each table becomes a resource
entry `{domain}|{docUrl.substring(6)}|{tableId}` (dropping the `/docs/`
prefix), and the path is rebuilt to organization, workspace, document from a
further lookup of the document metadata. -/
def listTables (currentFolderId : String) (tables : List Table)
    (doc : Document) : ListResult :=
  let parts := jsSplit currentFolderId '|' 2
  let domain := jsStr parts[0]?
  let docUrl := jsStr parts[1]?
  let folders := tables.map fun t =>
    ({ id := domain ++ "|" ++ jsSubstringFrom docUrl 6 ++ "|" ++ t.id
       title := t.id
       type := .resource
       format := some "csv" } : Entry)
  { count := folders.length
    results := folders
    path := [{ id := "/orgs/" ++ jsShowNat ((doc.workspace.bind (·.org)).map (·.id))
               title := ((doc.workspace.bind (·.org)).map (·.name)).getD ""
               type := .folder },
             { id := "/workspaces/" ++ jsShowNat (doc.workspace.map (·.id))
               title := (doc.workspace.map (·.name)).getD ""
               type := .folder },
             { id := currentFolderId, title := doc.name, type := .folder }] }

/-! ## Remote Client error model (`sendRequest` in `src/lib/imports.ts`)

A remote call either fails in transport or yields a status and a decoded
payload; `sendRequest` converts every failure into one fixed translated
message (the inner `HTTP {status}` throw is caught by its own `catch`). -/

/-- Outcome of the underlying HTTP call. -/
inductive RemoteOutcome (α : Type) where
  | transportError (message : String)
  | response (status : Nat) (data : α)

/-- The fixed translated message `sendRequest` raises on any failure. -/
def fetchFailureMsg : String :=
  "Erreur pendant la récupération des données, pensez à vérifier si l\x27url ou la clé d\x27API est correcte"

/-- The generic data-retrieval-failure phrase shared by every translated
error message of the connector. -/
def genericFailurePhrase : String := "Erreur pendant la récupération des données"

/-- Model of `sendRequest`: a transport error or a non-200 status raises the
fixed translated message; a 200 response yields its payload. -/
def sendRequest {α : Type} (r : RemoteOutcome α) : Except String α :=
  match r with
  | .transportError _ => .error fetchFailureMsg
  | .response status data =>
    if status ≠ 200 then .error fetchFailureMsg else .ok data

/-! ## Resource Fetcher (`getResource` and `getMetadataOnFields` in
`src/lib/download.ts`) -/

/-- Parse of `const [domain, docId, tableId] = resourceId.split('|', 3)`:
JavaScript destructuring leaves missing components `undefined`. -/
def parseResourceId (resourceId : String) :
    Option String × Option String × Option String :=
  let parts := jsSplit resourceId '|' 3
  (parts[0]?, parts[1]?, parts[2]?)

/-- The CSV download URL built by `getResource`, with the
SaaS-vs-self-hosted rule on `catalogConfig.url.includes('.getgrist.com')`. -/
def buildDownloadUrl (cfg : GristConfig) (resourceId : String) : String :=
  let p := parseResourceId resourceId
  let domain := jsStr p.1
  let docId := jsStr p.2.1
  let tableId := jsStr p.2.2
  if jsIncludes cfg.url ".getgrist.com" then
    cfg.url ++ "/api/docs/" ++ docId ++ "/download/csv?tableId=" ++ tableId
  else
    cfg.url ++ "/o/" ++ domain ++ "/api/docs/" ++ docId ++
      "/download/csv?tableId=" ++ tableId

/-- The `origin` link computed by `getMetadataOnFields` (and the earlier
`getResource`): `{baseUrl}/{docId}` on the SaaS domain, else
`{baseUrl}/o/{domain}/{docId}`. -/
def buildOrigin (cfg : GristConfig) (resourceId : String) : String :=
  let p := parseResourceId resourceId
  let domain := jsStr p.1
  let docId := jsStr p.2.1
  if jsIncludes cfg.url ".getgrist.com" then
    cfg.url ++ "/" ++ docId
  else
    cfg.url ++ "/o/" ++ domain ++ "/" ++ docId

/-- The message of the inner non-200 throw inside `getResource`. -/
def downloadHttpErrorMsg (status : Nat) : String :=
  "Erreur pendant la récupération des données (erreur HTTP " ++
    natToString status ++ ")"

/-- The message of the error re-raised by the catch-all of `getResource`:
the generic phrase with the caught error message appended. -/
def getResourceErrorMessage (upstream : String) : String :=
  "Erreur pendant la récupération des données: " ++ upstream

/-- The error raised by `getResource` when the CSV download fails (`none`
when the download succeeds): a transport error and a non-200 status both
flow through the catch-all, which appends the caught message. -/
def getResourceRaised {α : Type} (r : RemoteOutcome α) : Option String :=
  match r with
  | .transportError m => some (getResourceErrorMessage m)
  | .response status _ =>
    if status ≠ 200 then
      some (getResourceErrorMessage (downloadHttpErrorMsg status))
    else none

/-! ## Schema derivation (`getMetadataOnFields`) -/

/-- The `dialect` object of a table-schema field. -/
structure Dialect where
  delimiter : Option String := none
deriving DecidableEq, Repr

/-- A field of the table-schema payload. -/
structure Field where
  name : String
  description : Option String := none
  type : Option String := none
  dialect : Option Dialect := none
deriving DecidableEq, Repr

/-- The schema object of the table-schema payload. -/
structure SchemaObj where
  fields : List Field
deriving DecidableEq, Repr

/-- The table-schema payload of `/download/table-schema`. -/
structure SchemaPayload where
  name : String
  title : Option String := none
  schema : Option SchemaObj := none
deriving DecidableEq, Repr

/-- A derived schema entry `{ key, title, description, separator }`. -/
structure SchemaField where
  key : String
  title : String
  description : Option String
  separator : Option String
deriving DecidableEq, Repr

/-- The resource descriptor assembled by `getMetadataOnFields`. -/
structure ResourceOut where
  id : String
  title : String
  format : String
  mimeType : String
  origin : String
  schema : List SchemaField
deriving DecidableEq, Repr

/-- Whether a character survives slugification as itself. -/
def isSlugKeep (c : Char) : Bool := c.isAlphanum

/-- Modelled from the spec: the external `slugify` npm library invoked as
`slug(field.name, { lower: true, strict: true, replacement: '_' })` is not
part of this repository; following the spec it yields a lowercase
ASCII-safe slug with every maximal run of non-alphanumeric characters
replaced by a single underscore. The boolean argument records whether the
previous character was part of such a run. -/
def slugifyAux : Bool → List Char → List Char
  | _, [] => []
  | inRun, c :: cs =>
    if isSlugKeep c then c.toLower :: slugifyAux false cs
    else if inRun then slugifyAux true cs
    else replacementChar :: slugifyAux true cs
where
  /-- The configured replacement character. -/
  replacementChar : Char := '_'

/-- Modelled from the spec: the slug of a field name (see `slugifyAux`). -/
def slugifyModel (s : String) : String := ⟨slugifyAux false s.data⟩

/-- JavaScript `a || b` on a possibly-undefined string: falsy falls back. -/
def jsOrStr (o : Option String) (d : String) : String :=
  if jsFalsyStr o then d else jsStr o

/-- The `separator` computed for one field: set only for `type === 'array'`,
`", "` when the dialect delimiter is falsy or a bare comma, otherwise the
delimiter itself. -/
def deriveSeparator (f : Field) : Option String :=
  if f.type = some "array" then
    let delim := f.dialect.bind (·.delimiter)
    if jsFalsyStr delim || delim = some "," then some ", " else delim
  else none

/-- The schema entry derived for one field by `getMetadataOnFields`. -/
def deriveSchemaField (f : Field) : SchemaField :=
  { key := slugifyModel f.name
    title := f.name
    description := f.description
    separator := deriveSeparator f }

/-- The resource descriptor built by `getMetadataOnFields` from the
table-schema payload: `id: data.name`, `title: data.title || data.name`,
the origin link, and the derived schema of `data.schema?.fields || []`. -/
def metadataResource (cfg : GristConfig) (resourceId : String)
    (data : SchemaPayload) : ResourceOut :=
  { id := data.name
    title := jsOrStr data.title data.name
    format := "csv"
    mimeType := "text/csv"
    origin := buildOrigin cfg resourceId
    schema := ((data.schema.map (·.fields)).getD []).map deriveSchemaField }

/-! ## Secret preparation (`src/lib/prepare.ts`) -/

/-- The apiKey-bearing parts of the `prepare` context: the incoming
`catalogConfig.apiKey` and the stored `secrets.apiKey`. -/
structure PrepareState where
  catalogApiKey : Option String
  secretApiKey : Option String
deriving DecidableEq, Repr

/-- The apiKey redaction logic of `prepare`: a truthy incoming key different
from the `'********'` sentinel moves into the secrets and is replaced by the
sentinel; an empty incoming key with a truthy stored secret deletes the
secret; otherwise nothing changes. -/
def prepare (s : PrepareState) : PrepareState :=
  let apiKey := s.catalogApiKey
  if jsFalsyStr apiKey = false ∧ apiKey ≠ some "********" then
    { catalogApiKey := some "********", secretApiKey := apiKey }
  else if jsFalsyStr s.secretApiKey = false ∧ apiKey = some "" then
    { s with secretApiKey := none }
  else s

/-! ## Helper lemmas about the JavaScript string primitives -/

theorem jsIncludes_eq_true {s pat : String} (h : pat.data <:+: s.data) :
    jsIncludes s pat = true := by
  simpa [jsIncludes] using h

theorem jsIncludes_eq_false {s pat : String} (h : ¬ pat.data <:+: s.data) :
    jsIncludes s pat = false := by
  simpa [jsIncludes] using h

theorem jsIncludes_append_self (pat rest : String) :
    jsIncludes (pat ++ rest) pat = true := by
  apply jsIncludes_eq_true
  rw [String.data_append]
  exact ⟨[], rest.data, by simp⟩

theorem ne_empty_of_data_ne_nil {s : String} (h : s.data ≠ []) : s ≠ "" := by
  intro e
  subst e
  exact h rfl

theorem digitChar_isDigit {m : Nat} (h : m < 10) :
    (Nat.digitChar m).isDigit = true := by
  interval_cases m <;> decide

theorem natToCharsAux_isDigit (fuel : Nat) :
    ∀ n, ∀ c ∈ natToCharsAux fuel n, c.isDigit = true := by
  induction fuel with
  | zero => intro n c hc; cases hc
  | succ fuel ih =>
    intro n c hc
    unfold natToCharsAux at hc
    split at hc
    · next h =>
      rw [List.mem_singleton] at hc
      exact hc ▸ digitChar_isDigit h
    · next h =>
      rw [List.mem_append] at hc
      rcases hc with hc | hc
      · exact ih (n / 10) c hc
      · rw [List.mem_singleton] at hc
        exact hc ▸ digitChar_isDigit (Nat.mod_lt _ (by omega))

theorem natToChars_isDigit (n : Nat) : ∀ c ∈ natToChars n, c.isDigit = true :=
  natToCharsAux_isDigit (n + 1) n

theorem not_infix_digits {pat pre : List Char} {n : Nat} (c : Char)
    (hc : c ∈ pat) (hpre : c ∉ pre) (hnd : c.isDigit = false) :
    ¬ pat <:+: pre ++ natToChars n := by
  intro h
  have hmem := h.subset hc
  rw [List.mem_append] at hmem
  rcases hmem with hmem | hmem
  · exact hpre hmem
  · rw [natToChars_isDigit n c hmem] at hnd
    cases hnd

theorem splitCharsAux_of_not_mem {sep : Char} {l : List Char} (h : sep ∉ l) :
    splitCharsAux sep l = (l, []) := by
  induction l with
  | nil => rfl
  | cons c cs ih =>
    have hc : ¬ c = sep := fun e => h (e ▸ List.mem_cons_self c cs)
    have hcs : sep ∉ cs := fun m => h (List.mem_cons_of_mem _ m)
    simp [splitCharsAux, hc, ih hcs]

theorem splitCharsAux_append {sep : Char} {l₁ l₂ : List Char} (h : sep ∉ l₁) :
    splitCharsAux sep (l₁ ++ sep :: l₂) =
      ([] ++ l₁, (splitCharsAux sep l₂).1 :: (splitCharsAux sep l₂).2) := by
  induction l₁ with
  | nil => simp [splitCharsAux]
  | cons c cs ih =>
    have hc : ¬ c = sep := fun e => h (e ▸ List.mem_cons_self c cs)
    have hcs : sep ∉ cs := fun m => h (List.mem_cons_of_mem _ m)
    simp [splitCharsAux, hc, ih hcs]

theorem splitChars_of_not_mem {sep : Char} {l : List Char} (h : sep ∉ l) :
    splitChars sep l = [l] := by
  simp [splitChars, splitCharsAux_of_not_mem h]

theorem splitChars_append {sep : Char} {l₁ l₂ : List Char} (h : sep ∉ l₁) :
    splitChars sep (l₁ ++ sep :: l₂) = l₁ :: splitChars sep l₂ := by
  simp [splitChars, splitCharsAux_append h]

theorem data_append_pipe (a b : String) :
    (a ++ "|" ++ b).data = a.data ++ '|' :: b.data := by
  rw [String.data_append, String.data_append]
  simp

theorem jsSplit_two {d p : String} (hd : '|' ∉ d.data) (hp : '|' ∉ p.data) :
    jsSplit (d ++ "|" ++ p) '|' 2 = [d, p] := by
  unfold jsSplit
  rw [data_append_pipe, splitChars_append hd, splitChars_of_not_mem hp]
  rfl

theorem jsSplit_three {d i t : String} (hd : '|' ∉ d.data) (hi : '|' ∉ i.data)
    (ht : '|' ∉ t.data) :
    jsSplit (d ++ "|" ++ i ++ "|" ++ t) '|' 3 = [d, i, t] := by
  unfold jsSplit
  have : (d ++ "|" ++ i ++ "|" ++ t).data = d.data ++ '|' :: (i.data ++ '|' :: t.data) := by
    rw [String.data_append, String.data_append, String.data_append, String.data_append]
    simp
  rw [this, splitChars_append hd, splitChars_append hi, splitChars_of_not_mem ht]
  rfl

theorem parseResourceId_of_three {d i t : String} (hd : '|' ∉ d.data)
    (hi : '|' ∉ i.data) (ht : '|' ∉ t.data) :
    parseResourceId (d ++ "|" ++ i ++ "|" ++ t) = (some d, some i, some t) := by
  unfold parseResourceId
  rw [jsSplit_three hd hi ht]
  simp

theorem substring_strips_docs (docId : String) :
    jsSubstringFrom ("/docs/" ++ docId) 6 = docId := by
  apply String.ext
  show (("/docs/" ++ docId).data).drop 6 = docId.data
  rw [String.data_append]
  have h6 : ("/docs/" : String).data.length = 6 := rfl
  rw [← h6, List.drop_left]

theorem listDispatch_docTables_of (id : String) (hne : id ≠ "")
    (h1 : jsIncludes id "/orgs/" = false)
    (h2 : jsIncludes id "/workspaces/" = false) :
    listDispatch (some id) = .docTables := by
  simp [listDispatch, jsFalsyStr, hne, h1, h2]

theorem append3_data_ne_nil {a b c : String} (h : b.data ≠ []) :
    (a ++ b ++ c).data ≠ [] := by
  rw [String.data_append, String.data_append]
  intro e
  rcases List.append_eq_nil.mp e with ⟨e1, _⟩
  rcases List.append_eq_nil.mp e1 with ⟨_, e2⟩
  exact h e2

theorem append_data_ne_nil_left {a b : String} (h : a.data ≠ []) :
    (a ++ b).data ≠ [] := by
  rw [String.data_append]
  intro e
  exact h (List.append_eq_nil.mp e).1

theorem listDispatch_orgs_of (id : String) (hne : id ≠ "")
    (h1 : jsIncludes id "/orgs/" = true) :
    listDispatch (some id) = .orgWorkspaces := by
  simp [listDispatch, jsFalsyStr, hne, h1]

theorem listDispatch_workspaces_of (id : String) (hne : id ≠ "")
    (h1 : jsIncludes id "/orgs/" = false)
    (h2 : jsIncludes id "/workspaces/" = true) :
    listDispatch (some id) = .workspaceDocs := by
  simp [listDispatch, jsFalsyStr, hne, h1, h2]

/-! ## Claims -/

/-- C1: every folder id emitted by a listing call, fed back unmodified as
`currentFolderId`, routes the dispatch to the correct next-level branch: a
root-listing id `/orgs/{id}` lists workspaces, an organization-listing id
`/workspaces/{id}` lists documents, and a workspace-listing id
`{domain}|/docs/{docId}` lists tables (provided the emitted id does not
itself contain one of the two marker substrings). -/
theorem c1_folder_id_round_trip :
    (∀ orgs : List Organization, ∀ e ∈ (listRoot orgs).results,
        listDispatch (some e.id) = .orgWorkspaces) ∧
    (∀ (cfi : String) (wss : List Workspace) (org : Organization),
        ∀ e ∈ (listOrgWorkspaces cfi wss org).results,
          listDispatch (some e.id) = .workspaceDocs) ∧
    (∀ (cfi : String) (ws : Workspace),
        ∀ e ∈ (listWorkspaceDocs cfi ws).results,
          jsIncludes e.id "/orgs/" = false →
          jsIncludes e.id "/workspaces/" = false →
          listDispatch (some e.id) = .docTables) := by
  refine ⟨?_, ?_, ?_⟩
  · intro orgs e he
    simp only [listRoot, List.mem_map] at he
    obtain ⟨o, _, rfl⟩ := he
    apply listDispatch_orgs_of
    · exact ne_empty_of_data_ne_nil (append_data_ne_nil_left (by decide))
    · exact jsIncludes_append_self "/orgs/" (natToString o.id)
  · intro cfi wss org e he
    simp only [listOrgWorkspaces, List.mem_map] at he
    obtain ⟨w, _, rfl⟩ := he
    apply listDispatch_workspaces_of
    · exact ne_empty_of_data_ne_nil (append_data_ne_nil_left (by decide))
    · apply jsIncludes_eq_false
      rw [String.data_append]
      exact not_infix_digits 'g' (by decide) (by decide) (by decide)
    · exact jsIncludes_append_self "/workspaces/" (natToString w.id)
  · intro cfi ws e he h1 h2
    simp only [listWorkspaceDocs, List.mem_map] at he
    obtain ⟨d, _, rfl⟩ := he
    apply listDispatch_docTables_of _ _ h1 h2
    exact ne_empty_of_data_ne_nil (append3_data_ne_nil (by decide))

/-- Witness for C1: the ids of the test scenarios (`/orgs/1` from a root
listing, `/workspaces/2` from an organization listing, `org-1|/docs/d1`
from a workspace listing) route to the workspace, document and table
branches respectively. -/
theorem c1_folder_id_round_trip_witness :
    listDispatch (some "/orgs/1") = .orgWorkspaces ∧
    listDispatch (some "/workspaces/2") = .workspaceDocs ∧
    listDispatch (some "org-1|/docs/d1") = .docTables := by
  obtain ⟨ha, hb, hc⟩ := c1_folder_id_round_trip
  refine ⟨?_, ?_, ?_⟩
  · exact ha [{ name := "Personal", id := 1 }]
      { id := "/orgs/1", title := "Personal (@undefined)", type := .folder }
      (by decide)
  · exact hb "/orgs/1" [{ name := "wsp", id := 2 }] { name := "Personal", id := 1 }
      { id := "/workspaces/2", title := "wsp", type := .folder }
      (by decide)
  · exact hc "/workspaces/1"
      { name := "wsp 1", id := 1
        org := some { name := "Personal", id := 1, domain := some "org-1" }
        docs := some [{ name := "doc1", id := "d1" }] }
      { id := "org-1|/docs/d1", title := "doc1", type := .folder }
      (by decide) (by decide) (by decide)

/-- C4: a `currentFolderId` matching none of the three recognized shapes
(nonempty, no `/orgs/`, no `/workspaces/`) raises no dedicated
unrecognized-identifier error: the dispatch silently selects the
document/table branch, which treats the id as `{domain}|{docPath}` via
`split('|', 2)`; an id without any pipe keeps the whole id as the domain
and interpolates `undefined` as the document path of the fetched URL. -/
theorem c4_unrecognized_id_falls_through (id cfgUrl : String)
    (hne : id ≠ "")
    (h1 : jsIncludes id "/orgs/" = false)
    (h2 : jsIncludes id "/workspaces/" = false) :
    listDispatch (some id) = .docTables ∧
    (∀ domain docPath : String, id = domain ++ "|" ++ docPath →
        '|' ∉ domain.data → '|' ∉ docPath.data →
        jsSplit id '|' 2 = [domain, docPath]) ∧
    ('|' ∉ id.data →
        jsSplit id '|' 2 = [id] ∧
        (jsIncludes cfgUrl ".getgrist.com" = false →
          listTablesUrl cfgUrl id =
            cfgUrl ++ "/o/" ++ id ++ "/api" ++ "undefined" ++ "/tables")) := by
  refine ⟨listDispatch_docTables_of id hne h1 h2, ?_, ?_⟩
  · intro domain docPath hid hd hp
    subst hid
    exact jsSplit_two hd hp
  · intro hnp
    have hsplit : jsSplit id '|' 2 = [id] := by
      unfold jsSplit
      rw [splitChars_of_not_mem hnp]
      rfl
    refine ⟨hsplit, ?_⟩
    intro hs
    unfold listTablesUrl
    rw [hsplit, hs]
    simp [jsStr]

/-- Witness for C4: the unrecognized id `garbage` on a self-hosted base URL
falls through to the table branch and is treated as the domain with an
`undefined` document path. -/
theorem c4_unrecognized_id_falls_through_witness :
    listDispatch (some "garbage") = .docTables ∧
    jsSplit "garbage" '|' 2 = ["garbage"] ∧
    listTablesUrl "https://example.com" "garbage" =
      "https://example.com/o/garbage/apiundefined/tables" := by
  obtain ⟨hd, _, hs⟩ :=
    c4_unrecognized_id_falls_through "garbage" "https://example.com"
      (by decide) (by decide) (by decide)
  obtain ⟨h1, h2⟩ := hs (by decide)
  refine ⟨hd, h1, ?_⟩
  rw [h2 (by decide)]
  rfl

/-- C9: at the root (no `currentFolderId`) each organization produces a
folder with id exactly `/orgs/{id}`; an organization named "Personal" with
owner name `U` is titled `Personal (@U)` while every other organization
keeps its bare name, and the breadcrumb path is empty. -/
theorem c9_root_listing (orgs : List Organization) :
    (listRoot orgs).path = [] ∧
    (listRoot orgs).count = (listRoot orgs).results.length ∧
    ∀ o ∈ orgs,
      (∀ u : String, o.name = "Personal" → o.owner = some ⟨u⟩ →
        ({ id := "/orgs/" ++ natToString o.id
           title := "Personal (@" ++ u ++ ")"
           type := .folder } : Entry) ∈ (listRoot orgs).results) ∧
      (o.name ≠ "Personal" →
        ({ id := "/orgs/" ++ natToString o.id
           title := o.name
           type := .folder } : Entry) ∈ (listRoot orgs).results) := by
  refine ⟨rfl, rfl, ?_⟩
  intro o ho
  constructor
  · intro u hn hu
    simp only [listRoot, List.mem_map]
    refine ⟨o, ho, ?_⟩
    have ht : o.name ++ personalSuffix o = "Personal (@" ++ u ++ ")" := by
      apply String.ext
      simp [personalSuffix, hn, hu, jsStr, String.data_append]
    simp [ht]
  · intro hn
    simp only [listRoot, List.mem_map]
    refine ⟨o, ho, ?_⟩
    simp [personalSuffix, hn]

/-- Witness for C9: the spec scenario — a root listing of the organizations
`Personal` (owner `UserTest`, id 1) and `orgaTest` (id 2) contains the
folders `/orgs/1` titled `Personal (@UserTest)` and `/orgs/2` titled
`orgaTest`, with an empty path. -/
theorem c9_root_listing_witness :
    (listRoot [{ name := "Personal", id := 1, owner := some ⟨"UserTest"⟩ },
               { name := "orgaTest", id := 2 }]).path = [] ∧
    ({ id := "/orgs/1", title := "Personal (@UserTest)", type := .folder } : Entry) ∈
      (listRoot [{ name := "Personal", id := 1, owner := some ⟨"UserTest"⟩ },
                 { name := "orgaTest", id := 2 }]).results ∧
    ({ id := "/orgs/2", title := "orgaTest", type := .folder } : Entry) ∈
      (listRoot [{ name := "Personal", id := 1, owner := some ⟨"UserTest"⟩ },
                 { name := "orgaTest", id := 2 }]).results := by
  obtain ⟨hp, _, hm⟩ := c9_root_listing
    [{ name := "Personal", id := 1, owner := some ⟨"UserTest"⟩ },
     { name := "orgaTest", id := 2 }]
  refine ⟨hp, ?_, ?_⟩
  · exact (hm { name := "Personal", id := 1, owner := some ⟨"UserTest"⟩ }
      (by decide)).1 "UserTest" rfl rfl
  · exact (hm { name := "orgaTest", id := 2 } (by decide)).2 (by decide)

/-- C3: a document-level (table) listing for a well-formed folder id
`{domain}|/docs/{docId}` yields one entry per table with type `resource`,
format `csv`, and id `{domain}|{docId}|{tableId}` with the `/docs/` prefix
stripped; the breadcrumb path is exactly the organization, the workspace
and the document, in that order. -/
theorem c3_table_listing (domain docId : String) (tables : List Table)
    (doc : Document) (hd : '|' ∉ domain.data) (hi : '|' ∉ docId.data) :
    (listTables (domain ++ "|/docs/" ++ docId) tables doc).results =
      tables.map (fun t =>
        ({ id := domain ++ "|" ++ docId ++ "|" ++ t.id
           title := t.id
           type := .resource
           format := some "csv" } : Entry)) ∧
    (listTables (domain ++ "|/docs/" ++ docId) tables doc).path =
      [{ id := "/orgs/" ++ jsShowNat ((doc.workspace.bind (·.org)).map (·.id))
         title := ((doc.workspace.bind (·.org)).map (·.name)).getD ""
         type := .folder },
       { id := "/workspaces/" ++ jsShowNat (doc.workspace.map (·.id))
         title := (doc.workspace.map (·.name)).getD ""
         type := .folder },
       { id := domain ++ "|/docs/" ++ docId, title := doc.name, type := .folder }] ∧
    (listTables (domain ++ "|/docs/" ++ docId) tables doc).path.length = 3 := by
  have hp : '|' ∉ ("/docs/" ++ docId).data := by
    rw [String.data_append]
    intro hm
    rcases List.mem_append.mp hm with hm | hm
    · exact absurd hm (by decide)
    · exact hi hm
  have e : domain ++ "|/docs/" ++ docId = domain ++ "|" ++ ("/docs/" ++ docId) := by
    apply String.ext
    simp [String.data_append]
  have hsplit : jsSplit (domain ++ "|/docs/" ++ docId) '|' 2 =
      [domain, "/docs/" ++ docId] := by
    rw [e]
    exact jsSplit_two hd hp
  refine ⟨?_, ?_, ?_⟩
  · simp only [listTables, hsplit]
    simp [jsStr, substring_strips_docs]
  · simp only [listTables, hsplit]
  · simp only [listTables, hsplit]
    rfl

/-- Witness for C3: the test scenario — listing the tables of
`org-1|/docs/d1` with tables `Table1`, `Table2` and the document metadata of
`doc1` yields resource entries `org-1|d1|Table1`, `org-1|d1|Table2` and the
three-element path organization, workspace, document. -/
theorem c3_table_listing_witness :
    (listTables ("org-1" ++ "|/docs/" ++ "d1") [⟨"Table1"⟩, ⟨"Table2"⟩]
        { name := "doc1", id := "d1"
          workspace := some { name := "wsp 1", id := 1
                              org := some { name := "Personal", id := 1
                                            domain := some "org-1" } } }).results =
      [{ id := "org-1" ++ "|" ++ "d1" ++ "|" ++ "Table1", title := "Table1"
         type := .resource, format := some "csv" },
       { id := "org-1" ++ "|" ++ "d1" ++ "|" ++ "Table2", title := "Table2"
         type := .resource, format := some "csv" }] ∧
    (listTables ("org-1" ++ "|/docs/" ++ "d1") [⟨"Table1"⟩, ⟨"Table2"⟩]
        { name := "doc1", id := "d1"
          workspace := some { name := "wsp 1", id := 1
                              org := some { name := "Personal", id := 1
                                            domain := some "org-1" } } }).path.length = 3 := by
  obtain ⟨hr, _, hl⟩ := c3_table_listing "org-1" "d1" [⟨"Table1"⟩, ⟨"Table2"⟩]
    { name := "doc1", id := "d1"
      workspace := some { name := "wsp 1", id := 1
                          org := some { name := "Personal", id := 1
                                        domain := some "org-1" } } }
    (by decide) (by decide)
  exact ⟨hr, hl⟩

/-- C5: `getResource` builds the download URL and the origin by the
SaaS-vs-self-hosted rule: on a base URL containing `.getgrist.com` the URL
is `{baseUrl}/api/docs/{docId}/download/csv?tableId={tableId}` and the
origin `{baseUrl}/{docId}`; otherwise the URL is
`{baseUrl}/o/{domain}/api/docs/{docId}/download/csv?tableId={tableId}` and
the origin `{baseUrl}/o/{domain}/{docId}`. -/
theorem c5_download_url_and_origin (u domain docId tableId : String)
    (hd : '|' ∉ domain.data) (hi : '|' ∉ docId.data) (ht : '|' ∉ tableId.data) :
    (jsIncludes u ".getgrist.com" = true →
      buildDownloadUrl { url := u } (domain ++ "|" ++ docId ++ "|" ++ tableId) =
        u ++ "/api/docs/" ++ docId ++ "/download/csv?tableId=" ++ tableId ∧
      buildOrigin { url := u } (domain ++ "|" ++ docId ++ "|" ++ tableId) =
        u ++ "/" ++ docId) ∧
    (jsIncludes u ".getgrist.com" = false →
      buildDownloadUrl { url := u } (domain ++ "|" ++ docId ++ "|" ++ tableId) =
        u ++ "/o/" ++ domain ++ "/api/docs/" ++ docId ++
          "/download/csv?tableId=" ++ tableId ∧
      buildOrigin { url := u } (domain ++ "|" ++ docId ++ "|" ++ tableId) =
        u ++ "/o/" ++ domain ++ "/" ++ docId) := by
  have hparse := parseResourceId_of_three hd hi ht
  constructor
  · intro hs
    constructor
    · unfold buildDownloadUrl
      rw [hparse]
      simp [jsStr, hs]
    · unfold buildOrigin
      rw [hparse]
      simp [jsStr, hs]
  · intro hs
    constructor
    · unfold buildDownloadUrl
      rw [hparse]
      simp [jsStr, hs]
    · unfold buildOrigin
      rw [hparse]
      simp [jsStr, hs]

/-- Witness for C5: the test scenario — fetching `domain1|doc1|table1`
against the self-hosted base URL `https://example.com` downloads from
`/o/domain1/api/docs/doc1/download/csv?tableId=table1` with origin
`https://example.com/o/domain1/doc1`. -/
theorem c5_download_url_and_origin_witness :
    buildDownloadUrl { url := "https://example.com" }
        ("domain1" ++ "|" ++ "doc1" ++ "|" ++ "table1") =
      "https://example.com" ++ "/o/" ++ "domain1" ++ "/api/docs/" ++ "doc1" ++
        "/download/csv?tableId=" ++ "table1" ∧
    buildOrigin { url := "https://example.com" }
        ("domain1" ++ "|" ++ "doc1" ++ "|" ++ "table1") =
      "https://example.com" ++ "/o/" ++ "domain1" ++ "/" ++ "doc1" :=
  (c5_download_url_and_origin "https://example.com" "domain1" "doc1" "table1"
    (by decide) (by decide) (by decide)).2 (by decide)

/-- C6: each derived schema entry has the slug of the field name as key,
the field description passed through, and a separator only for array-typed
fields: `", "` when the dialect delimiter is absent, empty or a bare comma,
otherwise the delimiter itself; non-array fields get no separator. -/
theorem c6_schema_field_derivation (f : Field) :
    (deriveSchemaField f).key = slugifyModel f.name ∧
    (deriveSchemaField f).title = f.name ∧
    (deriveSchemaField f).description = f.description ∧
    (f.type = some "array" →
      ((f.dialect.bind (·.delimiter) = none ∨
        f.dialect.bind (·.delimiter) = some "" ∨
        f.dialect.bind (·.delimiter) = some ",") →
        (deriveSchemaField f).separator = some ", ") ∧
      (∀ d : String, f.dialect.bind (·.delimiter) = some d → d ≠ "" → d ≠ "," →
        (deriveSchemaField f).separator = some d)) ∧
    (f.type ≠ some "array" → (deriveSchemaField f).separator = none) := by
  refine ⟨rfl, rfl, rfl, ?_, ?_⟩
  · intro harr
    constructor
    · intro hdel
      rcases hdel with h | h | h <;>
        simp [deriveSchemaField, deriveSeparator, harr, h, jsFalsyStr]
    · intro d hdel hne hnc
      simp [deriveSchemaField, deriveSeparator, harr, hdel, jsFalsyStr, hne, hnc]
  · intro hne
    simp [deriveSchemaField, deriveSeparator, hne]

/-- Witness for C6: an array-typed field with delimiter `;` keeps `;` as
separator, an array-typed field with delimiter `,` gets `", "`, a non-array
field gets none, and the key is the slug of the field name. -/
theorem c6_schema_field_derivation_witness :
    (deriveSchemaField { name := "Field 1", description := some "D"
                         type := some "array"
                         dialect := some { delimiter := some ";" } }).separator =
      some ";" ∧
    (deriveSchemaField { name := "Field 1", description := some "D"
                         type := some "array"
                         dialect := some { delimiter := some "," } }).separator =
      some ", " ∧
    (deriveSchemaField { name := "Field 1", description := some "D" }).separator =
      none ∧
    (deriveSchemaField { name := "Field 1", description := some "D" }).key =
      slugifyModel "Field 1" := by
  refine ⟨?_, ?_, ?_, ?_⟩
  · exact ((c6_schema_field_derivation
      { name := "Field 1", description := some "D", type := some "array"
        dialect := some { delimiter := some ";" } }).2.2.2.1 rfl).2 ";" rfl
      (by decide) (by decide)
  · exact ((c6_schema_field_derivation
      { name := "Field 1", description := some "D", type := some "array"
        dialect := some { delimiter := some "," } }).2.2.2.1 rfl).1 (Or.inr (Or.inr rfl))
  · exact (c6_schema_field_derivation
      { name := "Field 1", description := some "D" }).2.2.2.2 (by decide)
  · exact (c6_schema_field_derivation { name := "Field 1", description := some "D" }).1

/-- C2 counterexample: `getResource` does not fail on identifiers without
exactly 3 pipe-separated components: a 1-component id parses to a single
domain with `undefined` components and still yields a download URL, and a
4-component id yields exactly the URL of its 3-component truncation. -/
theorem c2_no_arity_failure_counterexample :
    parseResourceId "domain1" = (some "domain1", none, none) ∧
    buildDownloadUrl { url := "https://example.com" } "domain1" =
      "https://example.com/o/domain1/api/docs/undefined/download/csv?tableId=undefined" ∧
    buildDownloadUrl { url := "https://example.com" } "a|b|c|extra" =
      buildDownloadUrl { url := "https://example.com" } "a|b|c" := by
  refine ⟨by decide, by decide, by decide⟩

/-- C2 amended: the resource identifier is parsed as `domain|docId|tableId`
by `split('|', 3)`, but the operation never fails on a malformed arity:
a well-formed id yields its three components, components beyond the third
are silently dropped, and missing components are left `undefined`. -/
theorem c2_resource_id_parse (domain docId tableId rest : String)
    (hd : '|' ∉ domain.data) (hi : '|' ∉ docId.data) (ht : '|' ∉ tableId.data)
    (hr : '|' ∉ rest.data) :
    parseResourceId (domain ++ "|" ++ docId ++ "|" ++ tableId) =
      (some domain, some docId, some tableId) ∧
    parseResourceId (domain ++ "|" ++ docId ++ "|" ++ tableId ++ "|" ++ rest) =
      (some domain, some docId, some tableId) ∧
    parseResourceId domain = (some domain, none, none) := by
  refine ⟨parseResourceId_of_three hd hi ht, ?_, ?_⟩
  · have hdata : (domain ++ "|" ++ docId ++ "|" ++ tableId ++ "|" ++ rest).data =
        domain.data ++ '|' :: (docId.data ++ '|' :: (tableId.data ++ '|' :: rest.data)) := by
      simp [String.data_append]
    unfold parseResourceId jsSplit
    rw [hdata, splitChars_append hd, splitChars_append hi, splitChars_append ht,
      splitChars_of_not_mem hr]
    simp
  · unfold parseResourceId jsSplit
    rw [splitChars_of_not_mem hd]
    simp

/-- Witness for the amended C2: the components of `domain1|doc1|table1`,
the truncation of `a|b|c|extra`, and the undefined components of a
pipe-free id. -/
theorem c2_resource_id_parse_witness :
    parseResourceId ("domain1" ++ "|" ++ "doc1" ++ "|" ++ "table1") =
      (some "domain1", some "doc1", some "table1") ∧
    parseResourceId ("a" ++ "|" ++ "b" ++ "|" ++ "c" ++ "|" ++ "extra") =
      (some "a", some "b", some "c") ∧
    parseResourceId "a" = (some "a", none, none) := by
  refine ⟨(c2_resource_id_parse "domain1" "doc1" "table1" "x"
      (by decide) (by decide) (by decide) (by decide)).1, ?_, ?_⟩
  · exact (c2_resource_id_parse "a" "b" "c" "extra"
      (by decide) (by decide) (by decide) (by decide)).2.1
  · exact (c2_resource_id_parse "a" "b" "c" "extra"
      (by decide) (by decide) (by decide) (by decide)).2.2

/-- C7 counterexample: for resourceId `d|i|T` (tableId `T`) and a schema
payload named `X` that omits its title, the returned title is the payload
name `X`, not the tableId `T` parsed from the resource identifier. -/
theorem c7_title_fallback_counterexample :
    (parseResourceId ("d" ++ "|" ++ "i" ++ "|" ++ "T")).2.2 = some "T" ∧
    (metadataResource { url := "https://example.com" }
        ("d" ++ "|" ++ "i" ++ "|" ++ "T") { name := "X" }).title = "X" ∧
    (metadataResource { url := "https://example.com" }
        ("d" ++ "|" ++ "i" ++ "|" ++ "T") { name := "X" }).title ≠ "T" := by
  refine ⟨by decide, by decide, by decide⟩

/-- C7 amended: the resource id and title derive from the table-schema
payload: the id is the payload's `name`, and the title is the payload's
`title`, falling back to the payload's `name` (not the tableId from the
identifier) when the title is absent or empty. -/
theorem c7_metadata_id_title (cfg : GristConfig) (rid : String)
    (data : SchemaPayload) :
    (metadataResource cfg rid data).id = data.name ∧
    ((data.title = none ∨ data.title = some "") →
      (metadataResource cfg rid data).title = data.name) ∧
    (∀ t, data.title = some t → t ≠ "" →
      (metadataResource cfg rid data).title = t) := by
  refine ⟨rfl, ?_, ?_⟩
  · intro h
    rcases h with h | h <;> simp [metadataResource, jsOrStr, jsFalsyStr, h, jsStr]
  · intro t h hne
    simp [metadataResource, jsOrStr, jsFalsyStr, h, hne, jsStr]

/-- Witness for the amended C7: the test payload `{name: table1,
title: Table1}` yields id `table1` and title `Table1`; dropping the title
falls back to `table1`. -/
theorem c7_metadata_id_title_witness :
    (metadataResource { url := "https://example.com" } "domain1|doc1|table1"
        { name := "table1", title := some "Table1" }).id = "table1" ∧
    (metadataResource { url := "https://example.com" } "domain1|doc1|table1"
        { name := "table1", title := some "Table1" }).title = "Table1" ∧
    (metadataResource { url := "https://example.com" } "domain1|doc1|table1"
        { name := "table1" }).title = "table1" := by
  refine ⟨(c7_metadata_id_title { url := "https://example.com" }
      "domain1|doc1|table1" { name := "table1", title := some "Table1" }).1, ?_, ?_⟩
  · exact (c7_metadata_id_title { url := "https://example.com" }
      "domain1|doc1|table1" { name := "table1", title := some "Table1" }).2.2
      "Table1" rfl (by decide)
  · exact (c7_metadata_id_title { url := "https://example.com" }
      "domain1|doc1|table1" { name := "table1" }).2.1 (Or.inl rfl)

/-- C8 counterexample: a transport failure with upstream message
`ECONNREFUSED` during a download is re-raised by the `getResource`
catch-all with the upstream text embedded verbatim in the raised message,
contradicting that the original error is only logged. -/
theorem c8_error_opacity_counterexample :
    getResourceRaised (RemoteOutcome.transportError (α := Unit) "ECONNREFUSED") =
      some (getResourceErrorMessage "ECONNREFUSED") ∧
    jsIncludes (getResourceErrorMessage "ECONNREFUSED") "ECONNREFUSED" = true ∧
    jsIncludes (getResourceErrorMessage "ECONNREFUSED") genericFailurePhrase = true := by
  refine ⟨rfl, by decide, by decide⟩

/-- C8 amended: every remote failure (transport error or non-200 status)
aborts the operation with a translated message containing the generic
data-retrieval-failure phrase and never returns data; listing failures via
`sendRequest` raise the one fixed message with no upstream content, while
the `getResource` catch-all appends the caught upstream message after the
generic phrase. -/
theorem c8_remote_failure_errors {α : Type} (r : RemoteOutcome α) :
    (∀ m, sendRequest r = .error m → m = fetchFailureMsg) ∧
    (∀ d, sendRequest r = .ok d → r = .response 200 d) ∧
    jsIncludes fetchFailureMsg genericFailurePhrase = true ∧
    (∀ msg, getResourceRaised r = some msg →
      jsIncludes msg genericFailurePhrase = true) ∧
    (∀ m, getResourceRaised (RemoteOutcome.transportError (α := α) m) =
      some (getResourceErrorMessage m)) := by
  have hprefix : ∀ m : String,
      jsIncludes (getResourceErrorMessage m) genericFailurePhrase = true := by
    intro m
    apply jsIncludes_eq_true
    refine ⟨[], (": " : String).data ++ m.data, ?_⟩
    show genericFailurePhrase.data ++ ((": " : String).data ++ m.data) =
      (getResourceErrorMessage m).data
    unfold getResourceErrorMessage
    rw [String.data_append]
    rw [show ("Erreur pendant la récupération des données: " : String).data =
      genericFailurePhrase.data ++ (": " : String).data from by decide]
    simp
  refine ⟨?_, ?_, by decide, ?_, fun m => rfl⟩
  · intro m hm
    cases r with
    | transportError msg =>
      simp [sendRequest] at hm
      exact hm.symm
    | response status d =>
      by_cases h : status = 200
      · simp [sendRequest, h] at hm
      · simp [sendRequest, h] at hm
        exact hm.symm
  · intro d hd
    cases r with
    | transportError msg => simp [sendRequest] at hd
    | response status dat =>
      by_cases h : status = 200
      · simp [sendRequest, h] at hd
        subst h
        rw [hd]
      · simp [sendRequest, h] at hd
  · intro msg hmsg
    cases r with
    | transportError m =>
      simp [getResourceRaised] at hmsg
      rw [← hmsg]
      exact hprefix m
    | response status d =>
      by_cases h : status = 200
      · simp [getResourceRaised, h] at hmsg
      · simp [getResourceRaised, h] at hmsg
        rw [← hmsg]
        exact hprefix _

/-- Witness for the amended C8: an HTTP 500 during a listing raises the
fixed translated message, and an HTTP 500 during a download raises a
message containing the generic phrase. -/
theorem c8_remote_failure_errors_witness :
    jsIncludes fetchFailureMsg genericFailurePhrase = true ∧
    jsIncludes (getResourceErrorMessage (downloadHttpErrorMsg 500))
      genericFailurePhrase = true ∧
    sendRequest (RemoteOutcome.response (α := Unit) 500 ()) =
      .error fetchFailureMsg := by
  obtain ⟨h1, _, h3, h4, _⟩ :=
    c8_remote_failure_errors (RemoteOutcome.response (α := Unit) 500 ())
  refine ⟨h3, h4 _ rfl, ?_⟩
  have := h1 fetchFailureMsg
  exact rfl

/-- C10 counterexample: with an empty incoming `catalogConfig.apiKey` and a
stored secret that exists but is the empty string, `prepare` leaves the
secret in place instead of deleting it (the code tests truthiness, not
existence). -/
theorem c10_prepare_counterexample :
    prepare { catalogApiKey := some "", secretApiKey := some "" } =
      { catalogApiKey := some "", secretApiKey := some "" } ∧
    (some "" : Option String).isSome = true ∧
    (prepare { catalogApiKey := some "", secretApiKey := some "" }).secretApiKey ≠
      none := by
  refine ⟨by decide, rfl, by decide⟩

/-- C10 amended: a nonempty incoming apiKey different from the `'********'`
sentinel moves into the secrets and is replaced by the sentinel; an empty
incoming apiKey with a nonempty stored secret deletes the secret; in every
other case (no incoming key, the sentinel, or an empty incoming key with no
nonempty secret) both values are unchanged — so a newly supplied plaintext
key never remains in the returned catalog config. -/
theorem c10_prepare_apikey (s : PrepareState) :
    (∀ k, s.catalogApiKey = some k → k ≠ "" → k ≠ "********" →
      (prepare s).secretApiKey = some k ∧
      (prepare s).catalogApiKey = some "********") ∧
    (s.catalogApiKey = some "" → ∀ k, s.secretApiKey = some k → k ≠ "" →
      (prepare s).secretApiKey = none ∧ (prepare s).catalogApiKey = some "") ∧
    ((s.catalogApiKey = none ∨ s.catalogApiKey = some "********" ∨
      (s.catalogApiKey = some "" ∧
        (s.secretApiKey = none ∨ s.secretApiKey = some ""))) →
      prepare s = s) := by
  refine ⟨?_, ?_, ?_⟩
  · intro k hk hne hns
    constructor <;> simp [prepare, jsFalsyStr, hk, hne, hns]
  · intro hk k hsk hne
    constructor <;> simp [prepare, jsFalsyStr, hk, hsk, hne]
  · intro h
    rcases h with h | h | ⟨h, hs | hs⟩
    · simp [prepare, jsFalsyStr, h]
    · simp [prepare, jsFalsyStr, h]
    · simp [prepare, jsFalsyStr, h, hs]
    · simp [prepare, jsFalsyStr, h, hs]

/-- Witness for the amended C10: a fresh key `abcde` is moved into the
secrets and redacted; an empty incoming key deletes the nonempty secret;
the sentinel leaves everything unchanged. -/
theorem c10_prepare_apikey_witness :
    (prepare { catalogApiKey := some "abcde", secretApiKey := none }).secretApiKey =
      some "abcde" ∧
    (prepare { catalogApiKey := some "abcde", secretApiKey := none }).catalogApiKey =
      some "********" ∧
    (prepare { catalogApiKey := some "", secretApiKey := some "abcde" }).secretApiKey =
      none ∧
    prepare { catalogApiKey := some "********", secretApiKey := some "abcde" } =
      { catalogApiKey := some "********", secretApiKey := some "abcde" } := by
  obtain ⟨h1, _, _⟩ :=
    c10_prepare_apikey { catalogApiKey := some "abcde", secretApiKey := none }
  obtain ⟨hm, hr⟩ := h1 "abcde" rfl (by decide) (by decide)
  obtain ⟨_, h2, _⟩ :=
    c10_prepare_apikey { catalogApiKey := some "", secretApiKey := some "abcde" }
  obtain ⟨hdel, _⟩ := h2 rfl "abcde" rfl (by decide)
  obtain ⟨_, _, h3⟩ :=
    c10_prepare_apikey { catalogApiKey := some "********", secretApiKey := some "abcde" }
  exact ⟨hm, hr, hdel, h3 (Or.inr (Or.inl rfl))⟩

end CatalogGrist
